import Mathlib

/-!
Shallow embedding of the MCP demo client (`client.py`) and its demo tool
server (`tools.py`).  Pure tool functions are modelled directly; the
client's effectful orchestration is modelled by explicit traces of events
and explicit message lists, with Python exceptions modelled by `Except`.
-/

/-- ASCII whitespace recognised by Python's `str.split` / `str.strip`
(space, tab, newline, carriage return, vertical tab, form feed). -/
def pyIsSpace (c : Char) : Bool :=
  c == ' ' || c == '\t' || c == '\n' || c == '\r' || c == '\x0b' || c == '\x0c'

/-- Python `str.strip()` restricted to the ASCII whitespace set. -/
def pyStrip (s : String) : String :=
  String.mk (((s.data.dropWhile pyIsSpace).reverse.dropWhile pyIsSpace).reverse)

/-- Python `str.upper()` restricted to ASCII case mapping. -/
def pyUpper (s : String) : String :=
  String.mk (s.data.map Char.toUpper)

/-- Splitting on maximal whitespace runs, Python `str.split()` with no
separator argument.  `acc` holds the characters of the current token in
reverse. -/
def splitWsAux : List Char → List Char → List (List Char)
  | [], acc => if acc.isEmpty then [] else [acc.reverse]
  | c :: cs, acc =>
    if pyIsSpace c then
      if acc.isEmpty then splitWsAux cs [] else acc.reverse :: splitWsAux cs []
    else splitWsAux cs (c :: acc)

/-- Python `text.split()`. -/
def pySplit (s : String) : List String :=
  (splitWsAux s.data []).map String.mk

/-- `tools.py` `echo(message)`: return the exact message sent in. -/
def echo (message : String) : String := message

/-- `tools.py` `word_count(text)`: report the number of whitespace-separated
words, with the plural `s` exactly when the count differs from one. -/
def word_count (text : String) : String :=
  let count := (pySplit text).length
  "The text contains " ++ toString count ++ " word" ++
    (if count != 1 then "s" else "") ++ "."

/-- Floor of a rational number. -/
def ratFloor (q : ℚ) : ℤ := Int.floor q

/-- Round a rational to the nearest integer, ties to even — the rounding
CPython's fixed-point formatting performs on the value being printed. -/
def roundHalfEven (q : ℚ) : ℤ :=
  let f := ratFloor q
  let frac : ℚ := q - (f : ℚ)
  if frac < 1 / 2 then f
  else if 1 / 2 < frac then f + 1
  else if f % 2 = 0 then f else f + 1

/-- Python `f"\x7bx:.2f\x7d"` applied to an exact rational value: render with
exactly two digits after the decimal point, rounding half to even. -/
def formatFixed2 (q : ℚ) : String :=
  let n := roundHalfEven (q * 100)
  let sign := if n < 0 then "-" else ""
  let m := n.natAbs
  sign ++ toString (m / 100) ++ "." ++
    (if m % 100 < 10 then "0" else "") ++ toString (m % 100)

/-- `tools.py` `convert_temperature(value, unit)`, modelled over exact
rationals: strip and upper-case the unit, then convert C to F or F to C,
rendering both temperatures to two decimal places. -/
def convert_temperature (value : ℚ) (unit : String) : String :=
  let u := pyUpper (pyStrip unit)
  if u = "C" then
    formatFixed2 value ++ " °C is " ++ formatFixed2 (value * 9 / 5 + 32) ++ " °F"
  else if u = "F" then
    formatFixed2 value ++ " °F is " ++ formatFixed2 ((value - 32) * 5 / 9) ++ " °C"
  else
    "Unit must be 'C' or 'F'."

theorem roundHalfEven_eq_self (q : ℚ) (f : ℤ) (h1 : ratFloor q = f)
    (h2 : q - (f : ℚ) < 1 / 2) : roundHalfEven q = f := by
  unfold roundHalfEven
  rw [h1, if_pos h2]

/-- Unfolding lemma for `roundHalfEven` in the round-up case. -/
theorem roundHalfEven_eq_succ (q : ℚ) (f : ℤ) (h1 : ratFloor q = f)
    (h2 : 1 / 2 < q - (f : ℚ)) : roundHalfEven q = f + 1 := by
  unfold roundHalfEven
  rw [h1, if_neg (by linarith), if_pos h2]

/-- Unfolding lemma for `formatFixed2` once the rounded integer is known. -/
theorem formatFixed2_eq (q : ℚ) (n : ℤ) (h : roundHalfEven (q * 100) = n) :
    formatFixed2 q =
      (if n < 0 then "-" else "") ++ toString (n.natAbs / 100) ++ "." ++
        (if n.natAbs % 100 < 10 then "0" else "") ++ toString (n.natAbs % 100) := by
  unfold formatFixed2
  rw [h]

/-- One oracle-issued tool-call directive: the wire shape
`\x7bid, function: \x7bname, arguments\x7d\x7d`, with `arguments` still the
JSON-encoded string. -/
structure ToolCall where
  id : String
  name : String
  arguments : String
deriving DecidableEq, Repr

/-- One tool descriptor as returned by the session's list-tools call. -/
structure Tool where
  name : String
  description : String
  inputSchema : String
deriving DecidableEq, Repr

/-- The oracle-facing function declaration built from a `Tool`
(`client.py` lines 56-66). -/
structure ToolDecl where
  name : String
  description : String
  parameters : String
deriving DecidableEq, Repr

/-- Projection of a tool descriptor into the oracle's declaration shape. -/
def toDecl (t : Tool) : ToolDecl :=
  ⟨t.name, t.description, t.inputSchema⟩

/-- Message roles occurring in `process_query`'s history. -/
inductive Role where
  | user
  | assistant
  | tool
deriving DecidableEq, Repr

/-- One entry of the model-facing message history. -/
structure Message where
  role : Role
  content : Option String
  toolCalls : List ToolCall
  toolCallId : Option String
deriving DecidableEq, Repr

/-- The user message `\x7b"role": "user", "content": query\x7d`. -/
def Message.user (q : String) : Message :=
  ⟨Role.user, some q, [], none⟩

/-- The assistant message carrying one tool call's metadata
(`client.py` lines 93-96). -/
def Message.assistantToolCall (tc : ToolCall) : Message :=
  ⟨Role.assistant, none, [tc], none⟩

/-- The tool-role message carrying a stringified tool response
(`client.py` lines 99-103). -/
def Message.toolResult (id content : String) : Message :=
  ⟨Role.tool, some content, [], some id⟩

/-- The single top choice of one completion response: optional content and
a (possibly empty) ordered tool-call list (`None` tool_calls ↦ `[]`;
Python treats both as falsy at line 82). -/
structure OracleResponse where
  content : Option String
  toolCalls : List ToolCall
deriving Repr

/-- Observable effects of one `MCPClient` run, in order of occurrence:
subprocess spawn, protocol handshake (`session.initialize()`), the session
list-tools call, one oracle completion request (with the messages sent and
the tool declarations offered, `none` when the request carries no `tools`
field), and one `session.call_tool` invocation. -/
inductive Event where
  | spawn (command path : String)
  | handshake
  | listToolsCall
  | oracleRequest (messages : List Message) (tools : Option (List ToolDecl))
  | toolInvocation (name args : String)
deriving DecidableEq, Repr

/-- The external collaborators of the client, as pure functions:
the session's fixed tool list, the completion oracle (fed the messages and
the optional tool declarations of the request), `json.loads` on an
arguments string (`Except.error` models a raised `JSONDecodeError`), and
`session.call_tool` (`Except.ok` is the stringified response object —
including responses whose payload reports a tool failure — while
`Except.error` models an exception raised by the call). -/
structure Env where
  listTools : List Tool
  oracle : List Message → Option (List ToolDecl) → OracleResponse
  jsonLoads : String → Except String String
  callTool : String → String → Except String String

/-- Python truthiness filter used by `if message.content:` — `None` and the
empty string both fail the test. -/
def pyTruthy : Option String → List String
  | none => []
  | some s => if s = "" then [] else [s]

/-- Python `"\n".join(...)`. -/
def pyJoin (sep : String) : List String → String
  | [] => ""
  | [x] => x
  | x :: xs => x ++ sep ++ pyJoin sep xs

/-- The `for tool_call in message.tool_calls:` loop of `process_query`
(`client.py` lines 83-113).  Per tool call: parse the arguments
(a parse failure raises, aborting the loop), invoke the tool (a raised
transport error likewise aborts), record the trace lines into
`final_text`, append the assistant/tool message pair, then issue a
follow-up completion request with no tool declarations and record its
truthy content.  Returns the final `"\n".join(final_text)` (or the raised
error), the event trace, and the message history at exit. -/
def runToolLoop (env : Env) :
    List ToolCall → List Message → List String → List Event →
    Except String String × List Event × List Message
  | [], msgs, finalText, evs =>
    (Except.ok (pyJoin "\n" finalText), evs, msgs)
  | tc :: rest, msgs, finalText, evs =>
    match env.jsonLoads tc.arguments with
    | Except.error e => (Except.error e, evs, msgs)
    | Except.ok toolArgs =>
      match env.callTool tc.name toolArgs with
      | Except.error e =>
        (Except.error e, evs ++ [Event.toolInvocation tc.name toolArgs], msgs)
      | Except.ok toolResponse =>
        let finalText := finalText ++
          ["[Tool " ++ tc.name ++ " called with args " ++ toolArgs ++ "]",
           toolResponse]
        let msgs := msgs ++
          [Message.assistantToolCall tc, Message.toolResult tc.id toolResponse]
        let followUp := env.oracle msgs none
        let evs := evs ++
          [Event.toolInvocation tc.name toolArgs, Event.oracleRequest msgs none]
        let finalText := finalText ++ pyTruthy followUp.content
        runToolLoop env rest msgs finalText evs

/-- `client.py` `process_query` (lines 50-115): build a fresh history
holding only the user message, fetch the tool list from the session,
issue the first completion request offering the projected declarations,
record truthy content, then run the tool-call loop. -/
def process_query (env : Env) (query : String) :
    Except String String × List Event × List Message :=
  let msgs := [Message.user query]
  let availableTools := env.listTools.map toDecl
  let r := env.oracle msgs (some availableTools)
  let evs := [Event.listToolsCall, Event.oracleRequest msgs (some availableTools)]
  runToolLoop env r.toolCalls msgs (pyTruthy r.content) evs

/-- `client.py` `chat_loop` (lines 117-129): each accepted query is handed
to `process_query`; a raised exception is caught per iteration and the
loop continues with the next query. -/
def chat_loop (env : Env) (queries : List String) :
    List (Except String String × List Event × List Message) :=
  queries.map (process_query env)

/-- Python `str.endswith`. -/
def strEndsWith (s suffix : String) : Bool :=
  s.data.reverse.take suffix.data.length == suffix.data.reverse

/-- `client.py` `connect_to_server` (lines 26-48): reject any path ending
in neither `.py` nor `.js` by raising (first component) before any effect
(empty trace); otherwise spawn the matching launcher, perform the
protocol handshake and issue the list-tools call, in that order. -/
def connect_to_server (path : String) : Except String Unit × List Event :=
  let is_python := strEndsWith path ".py"
  let is_js := strEndsWith path ".js"
  if !(is_python || is_js) then
    (Except.error "Server script must be a .py or .js file", [])
  else
    let command := if is_python then "python" else "node"
    (Except.ok (), [Event.spawn command path, Event.handshake, Event.listToolsCall])

/-- Result component of a `process_query` run. -/
def resultOf (r : Except String String × List Event × List Message) :
    Except String String := r.1

/-- Event-trace component of a `process_query` run. -/
def eventsOf (r : Except String String × List Event × List Message) :
    List Event := r.2.1

/-- Final-history component of a `process_query` run. -/
def messagesOf (r : Except String String × List Event × List Message) :
    List Message := r.2.2

/-- Whether an event is an oracle completion request. -/
def isOracleReq : Event → Bool
  | Event.oracleRequest _ _ => true
  | _ => false

/-- Number of oracle completion requests in a trace. -/
def countOracleRequests (evs : List Event) : Nat :=
  (evs.filter isOracleReq).length

/-- Number of session list-tools calls in a trace. -/
def countListToolsCalls (evs : List Event) : Nat :=
  (evs.filter fun e =>
    match e with
    | Event.listToolsCall => true
    | _ => false).length

/-- Number of tool invocations in a trace. -/
def countInvocations (evs : List Event) : Nat :=
  (evs.filter fun e =>
    match e with
    | Event.toolInvocation _ _ => true
    | _ => false).length

/-- The tool-declaration field of each oracle request in a trace, in order. -/
def reqToolsList (evs : List Event) : List (Option (List ToolDecl)) :=
  evs.filterMap fun e =>
    match e with
    | Event.oracleRequest _ t => some t
    | _ => none

/-- The messages of each oracle request in a trace, in order. -/
def reqMsgsList (evs : List Event) : List (List Message) :=
  evs.filterMap fun e =>
    match e with
    | Event.oracleRequest m _ => some m
    | _ => none

/-- The messages of the first oracle request of a trace, if any. -/
def firstOracleMsgs (evs : List Event) : Option (List Message) :=
  (reqMsgsList evs).head?

/-- The messages of each follow-up request (an oracle request carrying no
tool declarations), in order. -/
def followUpMsgs (evs : List Event) : List (List Message) :=
  evs.filterMap fun e =>
    match e with
    | Event.oracleRequest m none => some m
    | _ => none

/-- Number of tool-role messages in a history. -/
def toolRoleCount (msgs : List Message) : Nat :=
  (msgs.filter fun m =>
    match m.role with
    | Role.tool => true
    | _ => false).length

/-- The (assistant tool_call, tool result) message pairs the loop appends
for a tool-call list, when every argument parse succeeds with `J` and
every tool call returns `R`. -/
def expectedPairs (J : String → String) (R : String → String → String) :
    List ToolCall → List Message
  | [] => []
  | tc :: rest =>
    Message.assistantToolCall tc ::
      Message.toolResult tc.id (R tc.name (J tc.arguments)) ::
      expectedPairs J R rest

/-- The event trace the loop produces from history `msgs` onward, when
every argument parse succeeds with `J` and every tool call returns `R`:
per tool call, one invocation followed by one follow-up oracle request
over the extended history, with no tool declarations. -/
def expectedTrace (env : Env) (J : String → String) (R : String → String → String) :
    List ToolCall → List Message → List Event
  | [], _ => []
  | tc :: rest, msgs =>
    let msgs1 := msgs ++
      [Message.assistantToolCall tc, Message.toolResult tc.id (R tc.name (J tc.arguments))]
    Event.toolInvocation tc.name (J tc.arguments) ::
      Event.oracleRequest msgs1 none ::
      expectedTrace env J R rest msgs1

/-- The `final_text` lines the loop accumulates from history `msgs`
onward, under the same success assumptions. -/
def expectedText (env : Env) (J : String → String) (R : String → String → String) :
    List ToolCall → List Message → List String
  | [], _ => []
  | tc :: rest, msgs =>
    let resp := R tc.name (J tc.arguments)
    let msgs1 := msgs ++ [Message.assistantToolCall tc, Message.toolResult tc.id resp]
    ("[Tool " ++ tc.name ++ " called with args " ++ J tc.arguments ++ "]") :: resp ::
      (pyTruthy (env.oracle msgs1 none).content ++ expectedText env J R rest msgs1)

/-- Count of maximal whitespace-separated tokens of a character list; the
flag records whether the previous character was inside a token. -/
def countTokensAux : List Char → Bool → Nat
  | [], _ => 0
  | c :: cs, inTok =>
    if pyIsSpace c then countTokensAux cs false
    else (if inTok then 0 else 1) + countTokensAux cs true

/-- The number of maximal whitespace-separated tokens of a string:
each position where a non-whitespace character follows whitespace (or
starts the string) begins one token. -/
def countTokens (s : String) : Nat := countTokensAux s.data false

/-- Environment whose oracle requests two tool calls on the first round
and none afterwards, with parsing and invocation always succeeding. -/
def envC1 : Env :=
  ⟨[],
   fun _ t =>
     match t with
     | some _ => ⟨some "first", [⟨"id1", "echo", "a1"⟩, ⟨"id2", "echo", "a2"⟩]⟩
     | none => ⟨some "follow", []⟩,
   fun s => Except.ok s,
   fun _ _ => Except.ok "result"⟩

/-- Environment like `envC1` with distinct tool names, used to inspect
the first follow-up request's history. -/
def envC2 : Env :=
  ⟨[],
   fun _ t =>
     match t with
     | some _ => ⟨some "go", [⟨"c1", "add", "x1"⟩, ⟨"c2", "dice_roll", "x2"⟩]⟩
     | none => ⟨some "done", []⟩,
   fun s => Except.ok s,
   fun _ _ => Except.ok "out"⟩

/-- Environment whose first tool call carries arguments on which
`json.loads` raises, followed by a second, well-formed tool call. -/
def envC3 : Env :=
  ⟨[],
   fun _ t =>
     match t with
     | some _ => ⟨some "go", [⟨"b1", "echo", "bad"⟩, ⟨"b2", "echo", "good"⟩]⟩
     | none => ⟨some "done", []⟩,
   fun s => if s = "bad" then Except.error "JSONDecodeError" else Except.ok s,
   fun _ _ => Except.ok "out"⟩

/-- Environment with one advertised tool and no tool calls requested. -/
def envC4 : Env :=
  ⟨[⟨"echo", "Return the exact message you send in.", "schema-echo"⟩],
   fun _ _ => ⟨some "plain", []⟩,
   fun s => Except.ok s,
   fun _ _ => Except.ok "out"⟩

/-- Environment answering every request with plain content and no tool
calls. -/
def envC6 : Env :=
  ⟨[⟨"echo", "Return the exact message you send in.", "schema-echo"⟩],
   fun _ _ => ⟨some "hi", []⟩,
   fun s => Except.ok s,
   fun _ _ => Except.ok "out"⟩

/-- All-success environment with two tool calls on the first round, used
to witness the amended fan-out statements. -/
def envW1 : Env :=
  ⟨[],
   fun _ t =>
     match t with
     | some _ => ⟨some "hello", [⟨"w1", "echo", "p1"⟩, ⟨"w2", "add", "p2"⟩]⟩
     | none => ⟨some "and", []⟩,
   fun s => Except.ok s,
   fun _ _ => Except.ok "res"⟩

/-- All-success environment with two tool calls, used to witness the
amended pairing statements. -/
def envW2 : Env :=
  ⟨[],
   fun _ t =>
     match t with
     | some _ => ⟨some "sure", [⟨"v1", "word_count", "q1"⟩, ⟨"v2", "echo", "q2"⟩]⟩
     | none => ⟨some "then", []⟩,
   fun s => Except.ok s,
   fun _ _ => Except.ok "body"⟩

/-- Environment used to witness the fresh-history statement. -/
def envC10 : Env :=
  ⟨[],
   fun _ t =>
     match t with
     | some _ => ⟨some "ok", [⟨"u1", "echo", "z1"⟩]⟩
     | none => ⟨some "fin", []⟩,
   fun s => Except.ok s,
   fun _ _ => Except.ok "r"⟩

theorem runToolLoop_ok (env : Env) (J : String → String) (R : String → String → String)
    (hJ : ∀ s, env.jsonLoads s = Except.ok (J s))
    (hC : ∀ n a, env.callTool n a = Except.ok (R n a)) (tcs : List ToolCall) :
    ∀ (msgs : List Message) (ft : List String) (evs : List Event),
    runToolLoop env tcs msgs ft evs =
      (Except.ok (pyJoin "\n" (ft ++ expectedText env J R tcs msgs)),
       evs ++ expectedTrace env J R tcs msgs,
       msgs ++ expectedPairs J R tcs) := by
  induction tcs with
  | nil =>
    intro msgs ft evs
    simp [runToolLoop, expectedText, expectedTrace, expectedPairs]
  | cons tc rest ih =>
    intro msgs ft evs
    simp only [runToolLoop, hJ, hC]
    rw [ih]
    simp [expectedText, expectedTrace, expectedPairs, List.append_assoc]

theorem process_query_ok (env : Env) (J : String → String) (R : String → String → String)
    (hJ : ∀ s, env.jsonLoads s = Except.ok (J s))
    (hC : ∀ n a, env.callTool n a = Except.ok (R n a)) (q : String) :
    process_query env q =
      (Except.ok (pyJoin "\n"
        (pyTruthy (env.oracle [Message.user q]
            (some (env.listTools.map toDecl))).content ++
          expectedText env J R
            (env.oracle [Message.user q]
              (some (env.listTools.map toDecl))).toolCalls [Message.user q])),
       Event.listToolsCall ::
         Event.oracleRequest [Message.user q] (some (env.listTools.map toDecl)) ::
         expectedTrace env J R
           (env.oracle [Message.user q]
             (some (env.listTools.map toDecl))).toolCalls [Message.user q],
       Message.user q ::
         expectedPairs J R
           (env.oracle [Message.user q]
             (some (env.listTools.map toDecl))).toolCalls) := by
  unfold process_query
  rw [runToolLoop_ok env J R hJ hC]
  rfl

theorem expectedTrace_countOracle (env : Env) (J : String → String)
    (R : String → String → String) (tcs : List ToolCall) :
    ∀ msgs, countOracleRequests (expectedTrace env J R tcs msgs) = tcs.length := by
  induction tcs with
  | nil => intro msgs; simp [expectedTrace, countOracleRequests]
  | cons tc rest ih =>
    intro msgs
    simp [expectedTrace, countOracleRequests, isOracleReq] at ih ⊢
    exact ih _

theorem expectedTrace_reqTools (env : Env) (J : String → String)
    (R : String → String → String) (tcs : List ToolCall) :
    ∀ msgs, reqToolsList (expectedTrace env J R tcs msgs) =
      List.replicate tcs.length none := by
  induction tcs with
  | nil => intro msgs; simp [expectedTrace, reqToolsList]
  | cons tc rest ih =>
    intro msgs
    simp [expectedTrace, reqToolsList, List.replicate] at ih ⊢
    exact ih _

theorem expectedPairs_filterMap_id (J : String → String)
    (R : String → String → String) (tcs : List ToolCall) :
    (expectedPairs J R tcs).filterMap Message.toolCallId = tcs.map ToolCall.id := by
  induction tcs with
  | nil => simp [expectedPairs]
  | cons tc rest ih =>
    simp [expectedPairs, Message.assistantToolCall, Message.toolResult,
      List.filterMap_cons, ih]

theorem expectedPairs_toolRoleCount (J : String → String)
    (R : String → String → String) (tcs : List ToolCall) :
    toolRoleCount (expectedPairs J R tcs) = tcs.length := by
  induction tcs with
  | nil => simp [expectedPairs, toolRoleCount]
  | cons tc rest ih =>
    simp [expectedPairs, toolRoleCount, Message.assistantToolCall,
      Message.toolResult, Role] at ih ⊢
    exact ih

theorem getLast?_cons_getD {α : Type} (a x : α) (l : List α) :
    (a :: l).getLast?.getD x = l.getLast?.getD a := by
  induction l generalizing a with
  | nil => rfl
  | cons b l2 _ =>
    rw [List.getLast?_cons_cons]
    cases hq : (b :: l2).getLast? with
    | none => simp at hq
    | some v => simp

theorem expectedTrace_followUps_length (env : Env) (J : String → String)
    (R : String → String → String) (tcs : List ToolCall) :
    ∀ msgs, (followUpMsgs (expectedTrace env J R tcs msgs)).length = tcs.length := by
  induction tcs with
  | nil => intro msgs; simp [expectedTrace, followUpMsgs]
  | cons tc rest ih =>
    intro msgs
    simp [expectedTrace, followUpMsgs] at ih ⊢
    exact ih _

theorem expectedTrace_followUps_getD (env : Env) (J : String → String)
    (R : String → String → String) (tcs : List ToolCall) :
    ∀ msgs,
      (followUpMsgs (expectedTrace env J R tcs msgs)).getLast?.getD msgs =
        msgs ++ expectedPairs J R tcs := by
  induction tcs with
  | nil => intro msgs; simp [expectedTrace, followUpMsgs, expectedPairs]
  | cons tc rest ih =>
    intro msgs
    have hunfold : followUpMsgs (expectedTrace env J R (tc :: rest) msgs) =
        (msgs ++ [Message.assistantToolCall tc,
          Message.toolResult tc.id (R tc.name (J tc.arguments))]) ::
          followUpMsgs (expectedTrace env J R rest
            (msgs ++ [Message.assistantToolCall tc,
              Message.toolResult tc.id (R tc.name (J tc.arguments))])) := by
      simp [expectedTrace, followUpMsgs]
    rw [hunfold, getLast?_cons_getD, ih]
    simp [expectedPairs, List.append_assoc]

theorem runToolLoop_events_extend (env : Env) (tcs : List ToolCall) :
    ∀ msgs ft evs, ∃ t,
      eventsOf (runToolLoop env tcs msgs ft evs) = evs ++ t := by
  induction tcs with
  | nil => intro msgs ft evs; exact ⟨[], by simp [runToolLoop, eventsOf]⟩
  | cons tc rest ih =>
    intro msgs ft evs
    cases hJ : env.jsonLoads tc.arguments with
    | error e => exact ⟨[], by simp [runToolLoop, hJ, eventsOf]⟩
    | ok a =>
      cases hC : env.callTool tc.name a with
      | error e =>
        exact ⟨[Event.toolInvocation tc.name a], by simp [runToolLoop, hJ, hC, eventsOf]⟩
      | ok resp =>
        obtain ⟨t, ht⟩ := ih
          (msgs ++ [Message.assistantToolCall tc, Message.toolResult tc.id resp])
          (ft ++ ["[Tool " ++ tc.name ++ " called with args " ++ a ++ "]", resp] ++
            pyTruthy (env.oracle (msgs ++ [Message.assistantToolCall tc,
              Message.toolResult tc.id resp]) none).content)
          (evs ++ [Event.toolInvocation tc.name a,
            Event.oracleRequest (msgs ++ [Message.assistantToolCall tc,
              Message.toolResult tc.id resp]) none])
        refine ⟨[Event.toolInvocation tc.name a,
          Event.oracleRequest (msgs ++ [Message.assistantToolCall tc,
            Message.toolResult tc.id resp]) none] ++ t, ?_⟩
        rw [runToolLoop, hJ]
        simp only []
        rw [hC]
        simp only []
        rw [ht]
        simp [List.append_assoc]

theorem countOracleRequests_cons_listTools (evs : List Event) :
    countOracleRequests (Event.listToolsCall :: evs) = countOracleRequests evs := rfl

theorem countOracleRequests_cons_req (m : List Message)
    (t : Option (List ToolDecl)) (evs : List Event) :
    countOracleRequests (Event.oracleRequest m t :: evs) =
      countOracleRequests evs + 1 := rfl

theorem reqToolsList_cons_listTools (evs : List Event) :
    reqToolsList (Event.listToolsCall :: evs) = reqToolsList evs := rfl

theorem reqToolsList_cons_req (m : List Message)
    (t : Option (List ToolDecl)) (evs : List Event) :
    reqToolsList (Event.oracleRequest m t :: evs) = t :: reqToolsList evs := rfl

theorem followUpMsgs_cons_listTools (evs : List Event) :
    followUpMsgs (Event.listToolsCall :: evs) = followUpMsgs evs := rfl

theorem followUpMsgs_cons_req_some (m : List Message)
    (d : List ToolDecl) (evs : List Event) :
    followUpMsgs (Event.oracleRequest m (some d) :: evs) = followUpMsgs evs := rfl

theorem toolRoleCount_cons_user (q : String) (msgs : List Message) :
    toolRoleCount (Message.user q :: msgs) = toolRoleCount msgs := rfl

theorem runToolLoop_listTools_count (env : Env) (tcs : List ToolCall) :
    ∀ msgs ft evs,
      countListToolsCalls (eventsOf (runToolLoop env tcs msgs ft evs)) =
        countListToolsCalls evs := by
  induction tcs with
  | nil => intro msgs ft evs; simp [runToolLoop, eventsOf]
  | cons tc rest ih =>
    intro msgs ft evs
    cases hJ : env.jsonLoads tc.arguments with
    | error e => simp [runToolLoop, hJ, eventsOf]
    | ok a =>
      cases hC : env.callTool tc.name a with
      | error e =>
        simp [runToolLoop, hJ, hC, eventsOf, countListToolsCalls, List.filter_append]
      | ok resp =>
        rw [runToolLoop, hJ]
        simp only []
        rw [hC]
        simp only []
        rw [ih]
        simp [countListToolsCalls, List.filter_append]

/-- Unfolding lemma for `roundHalfEven` in the round-down case. -/

theorem splitWsAux_length (l : List Char) :
    ∀ acc, (splitWsAux l acc).length =
      countTokensAux l (!acc.isEmpty) + (if acc.isEmpty then 0 else 1) := by
  induction l with
  | nil =>
    intro acc
    by_cases h : acc.isEmpty <;> simp [splitWsAux, countTokensAux, h]
  | cons c cs ih =>
    intro acc
    by_cases hsp : pyIsSpace c
    · by_cases hacc : acc.isEmpty
      · simp [splitWsAux, countTokensAux, hsp, hacc, ih []]
      · simp [splitWsAux, countTokensAux, hsp, hacc, ih []]
    · by_cases hacc : acc.isEmpty
      · simp [splitWsAux, countTokensAux, hsp, hacc, ih (c :: acc)]
        omega
      · simp [splitWsAux, countTokensAux, hsp, hacc, ih (c :: acc)]

theorem pySplit_length (s : String) : (pySplit s).length = countTokens s := by
  simp [pySplit, countTokens, splitWsAux_length s.data []]

/-- C5: a path ending in neither `.py` nor `.js` makes `connect_to_server`
fail with the unsupported-script error before any effect (empty trace: no
subprocess spawn, no handshake, no catalog fetch); a supported path spawns
the matching launcher, performs the handshake, then issues the list-tools
call, in that order. -/
theorem claim_C5 (path : String) :
    (strEndsWith path ".py" = false → strEndsWith path ".js" = false →
      connect_to_server path =
        (Except.error "Server script must be a .py or .js file", [])) ∧
    (strEndsWith path ".py" = true →
      connect_to_server path =
        (Except.ok (), [Event.spawn "python" path, Event.handshake,
          Event.listToolsCall])) ∧
    (strEndsWith path ".js" = true → strEndsWith path ".py" = false →
      connect_to_server path =
        (Except.ok (), [Event.spawn "node" path, Event.handshake,
          Event.listToolsCall])) := by
  refine ⟨fun h1 h2 => ?_, fun h1 => ?_, fun h1 h2 => ?_⟩
  · simp [connect_to_server, h1, h2]
  · simp [connect_to_server, h1]
  · simp [connect_to_server, h1, h2]

theorem claim_C5_witness :
    connect_to_server "server.txt" =
      (Except.error "Server script must be a .py or .js file", []) ∧
    connect_to_server "server.py" =
      (Except.ok (), [Event.spawn "python" "server.py", Event.handshake,
        Event.listToolsCall]) ∧
    connect_to_server "server.js" =
      (Except.ok (), [Event.spawn "node" "server.js", Event.handshake,
        Event.listToolsCall]) :=
  ⟨(claim_C5 "server.txt").1 (by decide) (by decide),
   (claim_C5 "server.py").2.1 (by decide),
   (claim_C5 "server.js").2.2 (by decide) (by decide)⟩

/-- C6: when the first completion response carries no tool calls and
content `s`, `process_query` returns exactly `s`, makes exactly one
oracle request (the trace holds a single list-tools call and a single
completion request), and appends no assistant tool_call or tool-role
message: the final history is just the user message. -/
theorem claim_C6 (env : Env) (q s : String)
    (h1 : (env.oracle [Message.user q]
      (some (env.listTools.map toDecl))).toolCalls = [])
    (h2 : (env.oracle [Message.user q]
      (some (env.listTools.map toDecl))).content = some s) :
    process_query env q =
      (Except.ok s,
       [Event.listToolsCall,
        Event.oracleRequest [Message.user q] (some (env.listTools.map toDecl))],
       [Message.user q]) := by
  simp only [process_query]
  rw [h1, h2]
  by_cases hs : s = ""
  · subst hs
    simp [runToolLoop, pyTruthy, pyJoin]
  · simp [runToolLoop, pyTruthy, hs, pyJoin]

theorem claim_C6_witness :
    process_query envC6 "ping" =
      (Except.ok "hi",
       [Event.listToolsCall,
        Event.oracleRequest [Message.user "ping"]
          (some [⟨"echo", "Return the exact message you send in.",
            "schema-echo"⟩])],
       [Message.user "ping"]) :=
  claim_C6 envC6 "ping" "hi" rfl rfl

/-- C7: `convert_temperature(100, "F")` renders exactly
`"100.00 °F is 37.78 °C"`, and for unit `"F"` the Celsius value rendered
is `(value - 32) * 5 / 9`, formatted to two decimal places. -/
theorem claim_C7 :
    convert_temperature 100 "F" = "100.00 °F is 37.78 °C" ∧
    ∀ v : ℚ, convert_temperature v "F" =
      formatFixed2 v ++ " °F is " ++
        formatFixed2 ((v - 32) * 5 / 9) ++ " °C" := by
  constructor
  · have h2 : convert_temperature 100 "F" =
        formatFixed2 100 ++ " °F is " ++
          formatFixed2 (((100 : ℚ) - 32) * 5 / 9) ++ " °C" := rfl
    rw [h2,
      formatFixed2_eq 100 10000 (roundHalfEven_eq_self _ 10000
        (by norm_num [ratFloor, Int.floor_eq_iff]) (by norm_num)),
      formatFixed2_eq _ 3778 (roundHalfEven_eq_succ _ 3777
        (by norm_num [ratFloor, Int.floor_eq_iff]) (by norm_num))]
    rfl
  · intro v
    rfl

/-- C8: `echo` is the identity on its input; in particular
`echo(message="hello")` returns exactly `"hello"`. -/
theorem claim_C8 : (∀ s : String, echo s = s) ∧ echo "hello" = "hello" :=
  ⟨fun _ => rfl, rfl⟩

/-- C9: `word_count` reports the number of maximal whitespace-separated
tokens of its input, with the singular form exactly when that number is
one; an empty or all-whitespace text yields zero. -/
theorem claim_C9 : ∀ text : String,
    word_count text =
      "The text contains " ++ toString (countTokens text) ++
        (if countTokens text = 1 then " word." else " words.") := by
  intro text
  simp only [word_count]
  rw [pySplit_length]
  by_cases h : countTokens text = 1
  · rw [h]
    rfl
  · have hb : (countTokens text != 1) = true := by simp [h]
    rw [if_neg h, if_pos hb]
    simp only [String.append_assoc]
    rfl

theorem process_query_ok_events (env : Env) (J : String → String)
    (R : String → String → String)
    (hJ : ∀ s, env.jsonLoads s = Except.ok (J s))
    (hC : ∀ n a, env.callTool n a = Except.ok (R n a)) (q : String) :
    eventsOf (process_query env q) =
      Event.listToolsCall ::
        Event.oracleRequest [Message.user q] (some (env.listTools.map toDecl)) ::
        expectedTrace env J R
          (env.oracle [Message.user q]
            (some (env.listTools.map toDecl))).toolCalls [Message.user q] := by
  rw [process_query_ok env J R hJ hC q]
  rfl

theorem process_query_ok_messages (env : Env) (J : String → String)
    (R : String → String → String)
    (hJ : ∀ s, env.jsonLoads s = Except.ok (J s))
    (hC : ∀ n a, env.callTool n a = Except.ok (R n a)) (q : String) :
    messagesOf (process_query env q) =
      Message.user q ::
        expectedPairs J R
          (env.oracle [Message.user q]
            (some (env.listTools.map toDecl))).toolCalls := by
  rw [process_query_ok env J R hJ hC q]
  rfl

/-- C1 (amended): when the first completion response contains N tool
calls and every argument parse and tool call succeeds, `process_query`
issues one follow-up completion request after each tool call — N
follow-ups, hence 1 + N oracle requests in total — and only the first
request offers tool declarations: every follow-up carries none. -/
theorem claim_C1 (env : Env) (J : String → String) (R : String → String → String)
    (hJ : ∀ s, env.jsonLoads s = Except.ok (J s))
    (hC : ∀ n a, env.callTool n a = Except.ok (R n a)) (q : String) :
    countOracleRequests (eventsOf (process_query env q)) =
      1 + (env.oracle [Message.user q]
        (some (env.listTools.map toDecl))).toolCalls.length ∧
    reqToolsList (eventsOf (process_query env q)) =
      some (env.listTools.map toDecl) ::
        List.replicate (env.oracle [Message.user q]
          (some (env.listTools.map toDecl))).toolCalls.length none := by
  rw [process_query_ok_events env J R hJ hC q]
  constructor
  · rw [countOracleRequests_cons_listTools, countOracleRequests_cons_req,
      expectedTrace_countOracle]
    omega
  · rw [reqToolsList_cons_listTools, reqToolsList_cons_req,
      expectedTrace_reqTools]

theorem claim_C1_counterexample :
    countOracleRequests (eventsOf (process_query envC1 "q")) = 3 ∧
    (envC1.oracle [Message.user "q"]
      (some (envC1.listTools.map toDecl))).toolCalls.length = 2 :=
  ⟨rfl, rfl⟩

theorem claim_C1_witness :
    countOracleRequests (eventsOf (process_query envW1 "hi")) = 3 ∧
    reqToolsList (eventsOf (process_query envW1 "hi")) = [some [], none, none] :=
  claim_C1 envW1 (fun s => s) (fun _ _ => "res")
    (fun _ => rfl) (fun _ _ => rfl) "hi"

/-- C2 (amended): when every parse and invocation succeeds, each of the N
tool calls yields exactly one assistant/tool-role message pair with the
request's id, appended in list order before the next oracle request (the
trace interleaves invocation, pair append, follow-up request per tool
call); all N pairs are present before the final follow-up request is
issued, but the k-th follow-up sees only the first k pairs. -/
theorem claim_C2 (env : Env) (J : String → String) (R : String → String → String)
    (hJ : ∀ s, env.jsonLoads s = Except.ok (J s))
    (hC : ∀ n a, env.callTool n a = Except.ok (R n a)) (q : String) :
    messagesOf (process_query env q) =
      Message.user q ::
        expectedPairs J R (env.oracle [Message.user q]
          (some (env.listTools.map toDecl))).toolCalls ∧
    (messagesOf (process_query env q)).filterMap Message.toolCallId =
      ((env.oracle [Message.user q]
        (some (env.listTools.map toDecl))).toolCalls).map ToolCall.id ∧
    toolRoleCount (messagesOf (process_query env q)) =
      (env.oracle [Message.user q]
        (some (env.listTools.map toDecl))).toolCalls.length ∧
    eventsOf (process_query env q) =
      Event.listToolsCall ::
        Event.oracleRequest [Message.user q] (some (env.listTools.map toDecl)) ::
        expectedTrace env J R
          (env.oracle [Message.user q]
            (some (env.listTools.map toDecl))).toolCalls [Message.user q] ∧
    ((env.oracle [Message.user q]
        (some (env.listTools.map toDecl))).toolCalls ≠ [] →
      (followUpMsgs (eventsOf (process_query env q))).getLast? =
        some (Message.user q ::
          expectedPairs J R (env.oracle [Message.user q]
            (some (env.listTools.map toDecl))).toolCalls)) := by
  have hm := process_query_ok_messages env J R hJ hC q
  have he := process_query_ok_events env J R hJ hC q
  refine ⟨hm, ?_, ?_, he, ?_⟩
  · rw [hm]
    exact expectedPairs_filterMap_id J R _
  · rw [hm]
    exact expectedPairs_toolRoleCount J R _
  · intro hne
    rw [he, followUpMsgs_cons_listTools, followUpMsgs_cons_req_some]
    have hlen := expectedTrace_followUps_length env J R
      (env.oracle [Message.user q] (some (env.listTools.map toDecl))).toolCalls
      [Message.user q]
    have hgd := expectedTrace_followUps_getD env J R
      (env.oracle [Message.user q] (some (env.listTools.map toDecl))).toolCalls
      [Message.user q]
    cases hq : (followUpMsgs (expectedTrace env J R
        (env.oracle [Message.user q]
          (some (env.listTools.map toDecl))).toolCalls [Message.user q])).getLast? with
    | none =>
      exfalso
      rw [List.getLast?_eq_none_iff] at hq
      rw [hq] at hlen
      simp at hlen
      exact hne (List.length_eq_zero.mp hlen.symm)
    | some v =>
      rw [hq] at hgd
      simp at hgd
      rw [hgd]

theorem claim_C2_counterexample :
    ((followUpMsgs (eventsOf (process_query envC2 "q"))).head?).map toolRoleCount =
      some 1 ∧
    (envC2.oracle [Message.user "q"]
      (some (envC2.listTools.map toDecl))).toolCalls.length = 2 :=
  ⟨rfl, rfl⟩

theorem claim_C2_witness :
    messagesOf (process_query envW2 "hey") =
      [Message.user "hey", Message.assistantToolCall ⟨"v1", "word_count", "q1"⟩,
       Message.toolResult "v1" "body", Message.assistantToolCall ⟨"v2", "echo", "q2"⟩,
       Message.toolResult "v2" "body"] ∧
    (followUpMsgs (eventsOf (process_query envW2 "hey"))).getLast? =
      some [Message.user "hey", Message.assistantToolCall ⟨"v1", "word_count", "q1"⟩,
        Message.toolResult "v1" "body", Message.assistantToolCall ⟨"v2", "echo", "q2"⟩,
        Message.toolResult "v2" "body"] :=
  ⟨(claim_C2 envW2 (fun s => s) (fun _ _ => "body")
      (fun _ => rfl) (fun _ _ => rfl) "hey").1,
   (claim_C2 envW2 (fun s => s) (fun _ _ => "body")
      (fun _ => rfl) (fun _ _ => rfl) "hey").2.2.2.2 (by decide)⟩

/-- C3 (amended): a tool-call failure the transport returns as a response
payload is fed back to the oracle as tool-role content (it is the `R`
value in the amended C2 statement), but a `json.loads` failure on a tool
call's arguments raises out of `process_query` before that call is
invoked, aborting the whole remaining batch: the run ends with the raised
error, no invocation event, and no message appended. -/
theorem claim_C3 (env : Env) (q : String) (tc : ToolCall) (rest : List ToolCall)
    (e : String)
    (h1 : (env.oracle [Message.user q]
      (some (env.listTools.map toDecl))).toolCalls = tc :: rest)
    (h2 : env.jsonLoads tc.arguments = Except.error e) :
    process_query env q =
      (Except.error e,
       [Event.listToolsCall,
        Event.oracleRequest [Message.user q] (some (env.listTools.map toDecl))],
       [Message.user q]) := by
  simp only [process_query]
  rw [h1]
  simp [runToolLoop, h2]

theorem claim_C3_counterexample :
    resultOf (process_query envC3 "q") = Except.error "JSONDecodeError" ∧
    countInvocations (eventsOf (process_query envC3 "q")) = 0 ∧
    (envC3.oracle [Message.user "q"]
      (some (envC3.listTools.map toDecl))).toolCalls.length = 2 :=
  ⟨rfl, rfl, rfl⟩

theorem claim_C3_witness :
    process_query envC3 "w" =
      (Except.error "JSONDecodeError",
       [Event.listToolsCall, Event.oracleRequest [Message.user "w"] (some [])],
       [Message.user "w"]) :=
  claim_C3 envC3 "w" ⟨"b1", "echo", "bad"⟩ [⟨"b2", "echo", "good"⟩]
    "JSONDecodeError" rfl rfl

theorem process_query_listTools_once (env : Env) (q : String) :
    countListToolsCalls (eventsOf (process_query env q)) = 1 :=
  runToolLoop_listTools_count env
    (env.oracle [Message.user q] (some (env.listTools.map toDecl))).toolCalls
    [Message.user q]
    (pyTruthy (env.oracle [Message.user q]
      (some (env.listTools.map toDecl))).content)
    [Event.listToolsCall,
     Event.oracleRequest [Message.user q] (some (env.listTools.map toDecl))]

/-- C4 (amended): the tool list is fetched from the session once during
connect (used only for the startup print) and then re-fetched at the
start of every `process_query` call — each query's trace holds exactly
one list-tools call, and its first oracle request offers the
declarations projected from that query's own fetch of the session's
(fixed) tool list. -/
theorem claim_C4 (env : Env) (q : String) :
    countListToolsCalls (eventsOf (process_query env q)) = 1 ∧
    (eventsOf (process_query env q)).take 2 =
      [Event.listToolsCall,
       Event.oracleRequest [Message.user q] (some (env.listTools.map toDecl))] ∧
    ∀ queries : List String,
      (chat_loop env queries).map (fun r => countListToolsCalls (eventsOf r)) =
        List.replicate queries.length 1 := by
  refine ⟨process_query_listTools_once env q, ?_, ?_⟩
  · obtain ⟨t, ht⟩ := runToolLoop_events_extend env
      (env.oracle [Message.user q] (some (env.listTools.map toDecl))).toolCalls
      [Message.user q]
      (pyTruthy (env.oracle [Message.user q]
        (some (env.listTools.map toDecl))).content)
      [Event.listToolsCall,
       Event.oracleRequest [Message.user q] (some (env.listTools.map toDecl))]
    have ht2 : eventsOf (process_query env q) =
        [Event.listToolsCall,
         Event.oracleRequest [Message.user q]
           (some (env.listTools.map toDecl))] ++ t := ht
    rw [ht2]
    rfl
  · intro queries
    rw [List.eq_replicate_iff]
    constructor
    · simp [chat_loop]
    · intro b hb
      simp only [chat_loop, List.map_map, List.mem_map] at hb
      obtain ⟨q', _, hb⟩ := hb
      rw [← hb]
      exact process_query_listTools_once env q'

theorem claim_C4_counterexample :
    countListToolsCalls (eventsOf (process_query envC4 "a")) = 1 ∧
    (chat_loop envC4 ["a", "b"]).map (fun r => countListToolsCalls (eventsOf r)) =
      [1, 1] ∧
    countListToolsCalls (connect_to_server "server.py").2 = 1 :=
  ⟨rfl, rfl, rfl⟩

/-- C10: each accepted query is processed over a history built afresh:
the first oracle request of the k-th query in the chat loop carries
exactly the one user message of that query, never any message appended
during an earlier query. -/
theorem claim_C10 (env : Env) (queries : List String) (k : Nat) (q : String)
    (hk : queries[k]? = some q) :
    ((chat_loop env queries)[k]?).map (fun r => firstOracleMsgs (eventsOf r)) =
      some (some [Message.user q]) := by
  have hfirst : firstOracleMsgs (eventsOf (process_query env q)) =
      some [Message.user q] := by
    obtain ⟨t, ht⟩ := runToolLoop_events_extend env
      (env.oracle [Message.user q] (some (env.listTools.map toDecl))).toolCalls
      [Message.user q]
      (pyTruthy (env.oracle [Message.user q]
        (some (env.listTools.map toDecl))).content)
      [Event.listToolsCall,
       Event.oracleRequest [Message.user q] (some (env.listTools.map toDecl))]
    have ht2 : eventsOf (process_query env q) =
        [Event.listToolsCall,
         Event.oracleRequest [Message.user q]
           (some (env.listTools.map toDecl))] ++ t := ht
    rw [ht2]
    rfl
  simp [chat_loop, List.getElem?_map, hk, hfirst]

theorem claim_C10_witness :
    ((chat_loop envC10 ["hello", "again"])[1]?).map
      (fun r => firstOracleMsgs (eventsOf r)) =
      some (some [Message.user "again"]) :=
  claim_C10 envC10 ["hello", "again"] 1 "again" rfl
